import Mathlib

/-!
# gowstest: the websocket load bot (`bot/bot.go`)

A shallow embedding of the functions of `bot/bot.go` and the properties of
them that the specification states.

Modelling conventions.

* Go strings are modelled by Lean `String`s (sequences of characters); the
  byte-wise operations of the source (`len`, slicing, `==`) are read
  character-wise, which agrees with them on valid UTF-8 text.
* `math/rand` is an oracle: `draws k` is the value returned by the `k`-th call
  of `rand.Intn`; the state of the random source is the number of calls made.
* Loops that need not terminate take a step budget and report `outOfFuel`
  when it is used up; a run-time panic is the outcome `panicked`.
* A goroutine is modelled by its sequential code, with the events it receives
  from its environment (ticks, cancellation, results of network writes and
  reads) given as an explicit list.
-/

namespace Bot

/-! ## Outcomes of runs -/

/-- Outcome of running a Go function under a step budget. -/
inductive Outcome (α : Type) where
  | returned (a : α)
  | panicked
  | outOfFuel
  deriving DecidableEq, Repr

/-! ## `getRandomEnemy` -/

/-- The `for` loop of `getRandomEnemy` (lines 105-110): each iteration calls
`rand.Intn(len(ids))` (the draw number `pos`), indexes `ids` with the result
(a run-time panic when out of range) and returns the entry when it differs
from `playerID`.  The result carries the number of draws made so far. -/
def getRandomEnemyLoop (playerID : String) (ids : List String) (draws : Nat → Nat) :
    Nat → Nat → Outcome (String × Nat)
  | 0, _ => Outcome.outOfFuel
  | fuel + 1, pos =>
    match ids[draws pos]? with
    | none => Outcome.panicked
    | some id =>
      if id ≠ playerID then Outcome.returned (id, pos + 1)
      else getRandomEnemyLoop playerID ids draws fuel (pos + 1)

/-- The function `getRandomEnemy(playerID, ids)` (lines 100-111), started when
`pos` draws have already been made; it returns the chosen id together with the
number of draws made when it returns. -/
def getRandomEnemy (playerID : String) (ids : List String) (draws : Nat → Nat)
    (fuel pos : Nat) : Outcome (String × Nat) :=
  if ids.length < 2 then Outcome.returned ("", pos)
  else getRandomEnemyLoop playerID ids draws fuel pos

/-! ## Strings and formatting -/

/-- The function `strings.HasPrefix(s, pre)` of the Go library:
`len(s) >= len(pre) && s[:len(pre)] == pre`. -/
def HasPrefix (s pre : String) : Bool :=
  decide (pre.length ≤ s.length) && decide (s.data.take pre.length = pre.data)

/-- The format string assigned to `msgTemplate` in `main` (line 156). -/
def msgTemplate : String := "%s,4.23124,3.1415,8.5828348,270.42198842,184.24928148"

/-- The scanning loop of `fmt.Sprintf` over the characters of the format, for
string operands: an ordinary character is copied, `%%` prints a percent sign
and `%s` prints the next operand as it is (the operand is not scanned for
directives).  Every other directive, a missing operand and operands left over
are outside the modelled fragment (`none`). -/
def sprintfChars : List Char → List String → Option (List Char)
  | [], [] => some []
  | [], _ :: _ => none
  | [c], args => if c = '%' then none else (sprintfChars [] args).map (fun out => c :: out)
  | c :: v :: rest, args =>
    if c = '%' then
      if v = '%' then (sprintfChars rest args).map (fun out => '%' :: out)
      else if v = 's' then
        match args with
        | [] => none
        | a :: more => (sprintfChars rest more).map (fun out => a.data ++ out)
      else none
    else (sprintfChars (v :: rest) args).map (fun out => c :: out)

/-- The call `fmt.Sprintf(format, args...)` with string operands. -/
def Sprintf (format : String) (args : List String) : Option String :=
  (sprintfChars format.data args).map String.mk

/-- The leading comma-delimited field of a message, in the words of the
specification: the characters before the first comma. -/
def leadingField (message : String) : String :=
  String.mk (message.data.takeWhile (fun c => c ≠ ','))

/-! ## Counters -/

/-- Two's complement wrap-around of a 64-bit signed integer. -/
def wrapInt64 (x : Int) : Int := (x + 2 ^ 63) % 2 ^ 64 - 2 ^ 63

/-- The new value stored by `atomic.AddInt64(&v, delta)`. -/
def AddInt64 (v delta : Int) : Int := wrapInt64 (v + delta)

/-! ## Tasks -/

/-- How the run of a task over the given environment events ends. -/
inductive TaskStatus where
  /-- the function returned -/
  | exited
  /-- the events are used up: the task waits in `select` or `ReadMessage` -/
  | blocked
  /-- the step budget of `getRandomEnemy` is used up: its loop is still running -/
  | spinning
  /-- run-time panic -/
  | panicked
  /-- the run left the modelled fragment of the library -/
  | unmodelled
  deriving DecidableEq, Repr

/-- A frame written to a websocket connection. -/
inductive Frame where
  /-- `websocket.TextMessage` with its payload -/
  | text (payload : String)
  /-- `websocket.CloseMessage` carrying `CloseNormalClosure` -/
  | close
  deriving DecidableEq, Repr

/-- The sender's view of its connection `c`: the frames written with success,
oldest first, and whether `c.Close()` has been called. -/
structure Conn where
  written : List Frame
  closed : Bool
  deriving DecidableEq, Repr

/-- The state a sender task acts on: the counter of the wait group `wg`, the
global `sentMessages`, the number of random draws made, its connection. -/
structure SenderState where
  wg : Int
  sentMessages : Int
  drawn : Nat
  conn : Conn
  deriving DecidableEq, Repr

/-- What one pass through the `select` of `sendPlayerMessages` receives:
`quitChan` is closed, or a tick, together with the result of the
`c.WriteMessage` that the tick leads to (`true`: no error). -/
inductive SelectEvent where
  | quit
  | tick (writeOk : Bool)
  deriving DecidableEq, Repr

/-- The `for`/`select` loop of `sendPlayerMessages` (lines 127-142). -/
def sendLoop (playerID : String) (ids : List String) (draws : Nat → Nat) (fuel : Nat) :
    List SelectEvent → SenderState → TaskStatus × SenderState
  | [], s => (TaskStatus.blocked, s)
  | SelectEvent.quit :: _, s => (TaskStatus.exited, s)
  | SelectEvent.tick writeOk :: rest, s =>
    match getRandomEnemy playerID ids draws fuel s.drawn with
    | Outcome.outOfFuel => (TaskStatus.spinning, s)
    | Outcome.panicked => (TaskStatus.panicked, s)
    | Outcome.returned (enemy, drawn) =>
      match Sprintf msgTemplate [enemy] with
      | none => (TaskStatus.unmodelled, { s with drawn := drawn })
      | some payload =>
        if writeOk then
          sendLoop playerID ids draws fuel rest
            { s with
              drawn := drawn
              sentMessages := AddInt64 s.sentMessages 1
              conn := { s.conn with written := s.conn.written ++ [Frame.text payload] } }
        else (TaskStatus.exited, { s with drawn := drawn })

/-- The deferred function of `sendPlayerMessages` (lines 115-123);
`closeWriteOk` is the result of writing the close frame (`true`: no error). -/
def sendTeardown (closeWriteOk : Bool) (s : SenderState) : SenderState :=
  if closeWriteOk = false then s
  else
    { s with
      conn := { written := s.conn.written ++ [Frame.close], closed := true }
      wg := s.wg - 1 }

/-- The function `sendPlayerMessages(playerID, ids, c)` (lines 113-143):
`wg.Add(1)`, the loop, and on return the deferred function.  A run that does
not return (the task waits, spins or the process dies of a panic) is reported
with the state it reached in the loop. -/
def sendPlayerMessages (playerID : String) (ids : List String) (draws : Nat → Nat)
    (fuel : Nat) (events : List SelectEvent) (closeWriteOk : Bool) (s : SenderState) :
    TaskStatus × SenderState :=
  match sendLoop playerID ids draws fuel events { s with wg := s.wg + 1 } with
  | (TaskStatus.exited, s') => (TaskStatus.exited, sendTeardown closeWriteOk s')
  | r => r

/-- What one call of `c.ReadMessage()` returns to the receiver. -/
inductive ReadEvent where
  | error
  | message (payload : String)
  deriving DecidableEq, Repr

/-- The function `listenPlayerMessages(playerID, c)` (lines 72-86) over the
results of its reads; the state is the global `receivedMessages`. -/
def listenPlayerMessages (playerID : String) : List ReadEvent → Int → TaskStatus × Int
  | [], received => (TaskStatus.blocked, received)
  | ReadEvent.error :: _, received => (TaskStatus.exited, received)
  | ReadEvent.message m :: rest, received =>
    if HasPrefix m playerID = false then (TaskStatus.exited, received)
    else listenPlayerMessages playerID rest (AddInt64 received 1)

/-! ## `printDetails` -/

/-- Values of type `float64`: finite numbers, the two infinities and NaN.
The sign of a zero is not kept (the operands of `printDetails` are conversions
of integers, whose zero is the positive one). -/
inductive Float64 where
  | finite (q : ℚ)
  | inf (negative : Bool)
  | nan
  deriving DecidableEq

/-- Round to the nearest integer, a tie to the even one. -/
def roundHalfEven (q : ℚ) : Int :=
  if q - ⌊q⌋ < 1 / 2 then ⌊q⌋
  else if 1 / 2 < q - ⌊q⌋ then ⌊q⌋ + 1
  else if ⌊q⌋ % 2 = 0 then ⌊q⌋ else ⌊q⌋ + 1

/-- The exponent `e` with `2 ^ e ≤ |q| < 2 ^ (e + 1)`, for `q ≠ 0`. -/
def binaryExponent (q : ℚ) : Int :=
  if (2 : ℚ) ^ ((Nat.log2 q.num.natAbs : Int) - (Nat.log2 q.den : Int)) ≤ |q| then
    (Nat.log2 q.num.natAbs : Int) - (Nat.log2 q.den : Int)
  else (Nat.log2 q.num.natAbs : Int) - (Nat.log2 q.den : Int) - 1

/-- Rounding of a rational number to a `float64` with a 53-bit significand
(round to nearest, ties to even).  The exponent range is not bounded: the
values computed from two `int64` counters stay far inside it. -/
def roundFloat64 (q : ℚ) : ℚ :=
  if q = 0 then 0
  else roundHalfEven (q / (2 : ℚ) ^ (binaryExponent q - 52)) * (2 : ℚ) ^ (binaryExponent q - 52)

/-- The conversion `float64(n)` of an `int64`. -/
def Float64.ofInt64 (n : Int) : Float64 := Float64.finite (roundFloat64 n)

/-- The `float64` division `x / y`; a division by zero is not an error: it
gives NaN for `0 / 0` and an infinity with the sign of `x` otherwise. -/
def Float64.div : Float64 → Float64 → Float64
  | Float64.nan, _ => Float64.nan
  | _, Float64.nan => Float64.nan
  | Float64.inf _, Float64.inf _ => Float64.nan
  | Float64.inf n, Float64.finite b => Float64.inf (n != decide (b < 0))
  | Float64.finite _, Float64.inf _ => Float64.finite 0
  | Float64.finite a, Float64.finite b =>
    if b = 0 then (if a = 0 then Float64.nan else Float64.inf (decide (a < 0)))
    else Float64.finite (roundFloat64 (a / b))

/-- The `float64` product `x * y`. -/
def Float64.mul : Float64 → Float64 → Float64
  | Float64.nan, _ => Float64.nan
  | _, Float64.nan => Float64.nan
  | Float64.inf n, Float64.inf m => Float64.inf (n != m)
  | Float64.inf n, Float64.finite b =>
    if b = 0 then Float64.nan else Float64.inf (n != decide (b < 0))
  | Float64.finite a, Float64.inf m =>
    if a = 0 then Float64.nan else Float64.inf (decide (a < 0) != m)
  | Float64.finite a, Float64.finite b => Float64.finite (roundFloat64 (a * b))

/-- The percentage that `printDetails` passes to `Printf` (line 148):
`float64(receivedMessages) / float64(sentMessages) * 100`. -/
def percentage (receivedMessages sentMessages : Int) : Float64 :=
  Float64.mul (Float64.div (Float64.ofInt64 receivedMessages) (Float64.ofInt64 sentMessages))
    (Float64.finite 100)

/-! ## `main`: start-up -/

/-- A goroutine started with `go`. -/
inductive Task where
  | listener (playerID : String)
  | sender (playerID : String)
  deriving DecidableEq, Repr

/-- How the start-up loop of `main` ends. -/
inductive StartStatus where
  /-- all iterations done -/
  | completed
  /-- `log.Fatal` in `connectPlayer`: the process exits with status 1 -/
  | fatal
  /-- index out of range in `ids[i]` -/
  | panicked
  deriving DecidableEq, Repr

/-- The function `connectPlayer(playerID)` (lines 88-98); `dialOk` is the
result of `Dial` (`true`: no error).  On an error `log.Fatal` ends the process
(`none`); otherwise the listener goroutine is started. -/
def connectPlayer (dialOk : Bool) (playerID : String) (spawned : List Task) :
    Option (List Task) :=
  if dialOk = false then none
  else some (spawned ++ [Task.listener playerID])

/-- The loop `for i := 0; i < numBots; i++` of `main` (lines 163-167) with
`remaining` iterations to go, at index `i`; `dial j` is the result of the dial
of iteration `j`.  The result carries the goroutines started, oldest first. -/
def startLoop (ids : List String) (dial : Nat → Bool) :
    Nat → Nat → List Task → StartStatus × List Task
  | 0, _, spawned => (StartStatus.completed, spawned)
  | remaining + 1, i, spawned =>
    match ids[i]? with
    | none => (StartStatus.panicked, spawned)
    | some playerID =>
      match connectPlayer (dial i) playerID spawned with
      | none => (StartStatus.fatal, spawned)
      | some spawned' =>
        startLoop ids dial remaining (i + 1) (spawned' ++ [Task.sender playerID])

/-- The start-up of `main` for a fleet of `numBots` bots. -/
def startFleet (ids : List String) (dial : Nat → Bool) (numBots : Int) :
    StartStatus × List Task :=
  startLoop ids dial numBots.toNat 0 []

/-- The sender goroutines among the goroutines started. -/
def senders (spawned : List Task) : List String :=
  spawned.filterMap (fun t => match t with
    | Task.sender p => some p
    | Task.listener _ => none)

/-! ## `main`: shutdown -/

/-- The steps of the goroutine that handles the interrupt (lines 171-178). -/
inductive ShutdownStep where
  /-- `log.Println("Ctrl+C detected. Quitting...")` -/
  | logQuit
  /-- `printDetails`, with what held when it ran: whether `quitChan` was
  closed, and the counter of `wg` -/
  | printDetails (quitClosed : Bool) (wg : Int)
  /-- `close(quitChan)` -/
  | closeQuitChan
  /-- `os.Exit(code)` -/
  | exit (code : Int)
  deriving DecidableEq, Repr

/-- The state the interrupt handler acts on: the counter of `wg`, whether
`quitChan` is closed, whether the process has exited and with which status,
and the steps taken so far, oldest first. -/
structure ShutdownState where
  wg : Int
  quitClosed : Bool
  exited : Option Int
  steps : List ShutdownStep
  deriving DecidableEq, Repr

/-- The statement `log.Println` of the handler (line 173). -/
def stepLogQuit (s : ShutdownState) : ShutdownState :=
  { s with steps := s.steps ++ [ShutdownStep.logQuit] }

/-- The statement `printDetails(duration.Seconds())` of the handler (line 175). -/
def stepPrintDetails (s : ShutdownState) : ShutdownState :=
  { s with steps := s.steps ++ [ShutdownStep.printDetails s.quitClosed s.wg] }

/-- The statement `close(quitChan)` of the handler (line 176); the handler is
the only code that closes the channel. -/
def stepCloseQuitChan (s : ShutdownState) : ShutdownState :=
  { s with quitClosed := true, steps := s.steps ++ [ShutdownStep.closeQuitChan] }

/-- The statement `os.Exit(0)` of the handler (line 177). -/
def stepExit (s : ShutdownState) : ShutdownState :=
  { s with exited := some 0, steps := s.steps ++ [ShutdownStep.exit 0] }

/-- The body of the interrupt handler once a signal has arrived (lines
173-177), in the order of the source. -/
def interruptHandler (s : ShutdownState) : ShutdownState :=
  stepExit (stepCloseQuitChan (stepPrintDetails (stepLogQuit s)))

/-- The order of shutdown that the specification describes, as a check of the
steps taken: every `printDetails` ran with `quitChan` closed and with the
counter of `wg` at zero. -/
def reportsAfterDrain (steps : List ShutdownStep) : Bool :=
  steps.all (fun step => match step with
    | ShutdownStep.printDetails quitClosed wg => quitClosed && decide (wg = 0)
    | _ => true)

/-! ## Facts about `getRandomEnemy` -/

theorem getRandomEnemyLoop_returned (playerID : String) (ids : List String)
    (draws : Nat → Nat) (fuel pos : Nat) (r : String × Nat)
    (h : getRandomEnemyLoop playerID ids draws fuel pos = Outcome.returned r) :
    r.1 ∈ ids ∧ r.1 ≠ playerID := by
  induction fuel generalizing pos with
  | zero => simp [getRandomEnemyLoop] at h
  | succ n ih =>
    rw [getRandomEnemyLoop] at h
    cases hget : ids[draws pos]? with
    | none => simp [hget] at h
    | some id =>
      simp only [hget] at h
      by_cases hid : id = playerID
      · simp only [hid, ne_eq, not_true_eq_false, if_false] at h
        exact ih (pos + 1) h
      · simp only [ne_eq, hid, not_false_eq_true, if_true, Outcome.returned.injEq] at h
        subst h
        exact ⟨List.getElem?_mem hget, hid⟩

/-- While every draw selects `playerID`, the loop keeps going. -/
theorem getRandomEnemyLoop_skip (playerID : String) (ids : List String)
    (draws : Nat → Nat) (k : Nat) (fuel pos : Nat)
    (hsame : ∀ j, j < k → ids[draws (pos + j)]? = some playerID) :
    getRandomEnemyLoop playerID ids draws (k + fuel) pos =
      getRandomEnemyLoop playerID ids draws fuel (pos + k) := by
  induction k generalizing pos with
  | zero => simp
  | succ n ih =>
    have h0 : ids[draws pos]? = some playerID := by simpa using hsame 0 (Nat.succ_pos n)
    have hrest : ∀ j, j < n → ids[draws (pos + 1 + j)]? = some playerID := by
      intro j hj
      have := hsame (j + 1) (Nat.succ_lt_succ hj)
      simpa [Nat.add_assoc, Nat.add_comm 1 j] using this
    have hfuel : n + 1 + fuel = (n + fuel) + 1 := by omega
    rw [hfuel, getRandomEnemyLoop]
    simp only [h0, ne_eq, not_true_eq_false, if_false]
    rw [ih (pos + 1) hrest]
    congr 1
    omega

/-- With too little fuel to reach a draw that differs from `playerID`, the
loop is still running. -/
theorem getRandomEnemyLoop_outOfFuel (playerID : String) (ids : List String)
    (draws : Nat → Nat) (fuel pos : Nat)
    (hsame : ∀ j, j < fuel → ids[draws (pos + j)]? = some playerID) :
    getRandomEnemyLoop playerID ids draws fuel pos = Outcome.outOfFuel := by
  have h := getRandomEnemyLoop_skip playerID ids draws fuel 0 pos hsame
  simpa [getRandomEnemyLoop] using h

/-- The loop returns the entry selected by the first draw that differs from
`playerID`, as soon as the budget reaches that draw. -/
theorem getRandomEnemyLoop_first (playerID : String) (ids : List String)
    (draws : Nat → Nat) (k : Nat) (fuel pos : Nat) (id : String)
    (hsame : ∀ j, j < k → ids[draws (pos + j)]? = some playerID)
    (hk : ids[draws (pos + k)]? = some id) (hid : id ≠ playerID) (hfuel : k < fuel) :
    getRandomEnemyLoop playerID ids draws fuel pos = Outcome.returned (id, pos + k + 1) := by
  obtain ⟨m, rfl⟩ : ∃ m, fuel = k + (m + 1) := ⟨fuel - k - 1, by omega⟩
  rw [getRandomEnemyLoop_skip playerID ids draws k (m + 1) pos hsame, getRandomEnemyLoop]
  simp [hk, hid]

theorem getRandomEnemyLoop_returned_draw (playerID : String) (ids : List String)
    (draws : Nat → Nat) (fuel pos : Nat) (r : String × Nat)
    (h : getRandomEnemyLoop playerID ids draws fuel pos = Outcome.returned r) :
    ∃ k, ids[draws (pos + k)]? = some r.1 ∧ r.1 ≠ playerID := by
  induction fuel generalizing pos with
  | zero => simp [getRandomEnemyLoop] at h
  | succ n ih =>
    rw [getRandomEnemyLoop] at h
    cases hget : ids[draws pos]? with
    | none => simp [hget] at h
    | some id =>
      simp only [hget] at h
      by_cases hid : id = playerID
      · simp only [hid, ne_eq, not_true_eq_false, if_false] at h
        obtain ⟨k, hk, hne⟩ := ih (pos + 1) h
        refine ⟨k + 1, ?_, hne⟩
        rw [← hk]
        congr 2
        omega
      · simp only [ne_eq, hid, not_false_eq_true, if_true, Outcome.returned.injEq] at h
        subst h
        exact ⟨0, by simpa using hget, hid⟩

theorem length_ge_two_of_dedup (ids : List String) (h : 2 ≤ ids.dedup.length) :
    2 ≤ ids.length :=
  le_trans h (List.Sublist.length_le (List.dedup_sublist ids))

/-- C1: for every `playerID`, every list `ids` with at least two distinct
entries and every sequence of draws, a run of `getRandomEnemy` that returns
gives an element of `ids` that is different from `playerID`. -/
theorem getRandomEnemy_returns_other (playerID : String) (ids : List String)
    (draws : Nat → Nat) (fuel pos : Nat) (r : String × Nat)
    (hdistinct : 2 ≤ ids.dedup.length)
    (hret : getRandomEnemy playerID ids draws fuel pos = Outcome.returned r) :
    r.1 ∈ ids ∧ r.1 ≠ playerID := by
  have hlen : ¬ ids.length < 2 := not_lt.mpr (length_ge_two_of_dedup ids hdistinct)
  rw [getRandomEnemy, if_neg hlen] at hret
  exact getRandomEnemyLoop_returned playerID ids draws fuel pos r hret

theorem getRandomEnemy_returns_other_witness :
    2 ≤ ["a", "b"].dedup.length ∧
    getRandomEnemy "a" ["a", "b"] (fun k => k % 2) 5 0 = Outcome.returned ("b", 2) ∧
    ("b" ∈ ["a", "b"] ∧ "b" ≠ "a") :=
  ⟨by decide, by decide,
    getRandomEnemy_returns_other "a" ["a", "b"] (fun k => k % 2) 5 0 ("b", 2)
      (by decide) (by decide)⟩

theorem getRandomEnemy_of_length_lt_two (playerID : String) (ids : List String)
    (draws : Nat → Nat) (fuel pos : Nat) (hshort : ids.length < 2) :
    getRandomEnemy playerID ids draws fuel pos = Outcome.returned ("", pos) :=
  if_pos hshort

/-- C2: for every `playerID` and every list `ids` with fewer than two entries,
`getRandomEnemy` returns the empty string, whatever the step budget and the
random source, and the number of draws made is unchanged. -/
theorem getRandomEnemy_short_list (playerID : String) (ids : List String)
    (draws : Nat → Nat) (fuel pos : Nat) (hshort : ids.length < 2) :
    getRandomEnemy playerID ids draws fuel pos = Outcome.returned ("", pos) := by
  rw [getRandomEnemy, if_pos hshort]

theorem getRandomEnemy_short_list_witness :
    ["a"].length < 2 ∧
    getRandomEnemy "a" ["a"] (fun _ => 0) 0 3 = Outcome.returned ("", 3) :=
  ⟨by decide, getRandomEnemy_short_list "a" ["a"] (fun _ => 0) 0 3 (by decide)⟩

/-- C10: for a list `ids` of at least two entries and in-range draws,
`getRandomEnemy` returns (for some step budget) if and only if some draw
selects an entry different from `playerID`; it then returns the entry selected
by the first such draw, as soon as the budget reaches it; and when every entry
of `ids` equals `playerID` the loop is still running after every budget. -/
theorem getRandomEnemy_returns_iff (playerID : String) (ids : List String)
    (draws : Nat → Nat) (pos : Nat)
    (hlen : 2 ≤ ids.length) (hrange : ∀ k, draws k < ids.length) :
    ((∃ fuel r, getRandomEnemy playerID ids draws fuel pos = Outcome.returned r) ↔
      ∃ k id, ids[draws (pos + k)]? = some id ∧ id ≠ playerID) ∧
    (∀ k id, (∀ j, j < k → ids[draws (pos + j)]? = some playerID) →
      ids[draws (pos + k)]? = some id → id ≠ playerID →
      ∀ fuel, getRandomEnemy playerID ids draws fuel pos =
        if k < fuel then Outcome.returned (id, pos + k + 1) else Outcome.outOfFuel) ∧
    ((∀ x, x ∈ ids → x = playerID) →
      ∀ fuel, getRandomEnemy playerID ids draws fuel pos = Outcome.outOfFuel) := by
  have hnot : ¬ ids.length < 2 := not_lt.mpr hlen
  have hfirst : ∀ k id, (∀ j, j < k → ids[draws (pos + j)]? = some playerID) →
      ids[draws (pos + k)]? = some id → id ≠ playerID →
      ∀ fuel, getRandomEnemy playerID ids draws fuel pos =
        if k < fuel then Outcome.returned (id, pos + k + 1) else Outcome.outOfFuel := by
    intro k id hsame hk hid fuel
    rw [getRandomEnemy, if_neg hnot]
    by_cases hf : k < fuel
    · rw [if_pos hf]
      exact getRandomEnemyLoop_first playerID ids draws k fuel pos id hsame hk hid hf
    · rw [if_neg hf]
      exact getRandomEnemyLoop_outOfFuel playerID ids draws fuel pos
        (fun j hj => hsame j (lt_of_lt_of_le hj (not_lt.mp hf)))
  refine ⟨⟨?_, ?_⟩, hfirst, ?_⟩
  · rintro ⟨fuel, r, hr⟩
    rw [getRandomEnemy, if_neg hnot] at hr
    obtain ⟨k, hk, hne⟩ := getRandomEnemyLoop_returned_draw playerID ids draws fuel pos r hr
    exact ⟨k, r.1, hk, hne⟩
  · intro hex
    have hex' : ∃ k, ids[draws (pos + k)]? ≠ some playerID := by
      obtain ⟨k, id, hk, hid⟩ := hex
      exact ⟨k, by rw [hk]; simpa using hid⟩
    have hmin : ∀ j, j < Nat.find hex' → ids[draws (pos + j)]? = some playerID :=
      fun j hj => not_not.mp (Nat.find_min hex' hj)
    have hk := Nat.find_spec hex'
    have hb : draws (pos + Nat.find hex') < ids.length := hrange _
    have hget : ids[draws (pos + Nat.find hex')]? = some ids[draws (pos + Nat.find hex')] :=
      List.getElem?_eq_getElem hb
    have hid : ids[draws (pos + Nat.find hex')] ≠ playerID := by
      intro heq
      exact hk (by rw [hget, heq])
    refine ⟨Nat.find hex' + 1, (ids[draws (pos + Nat.find hex')], pos + Nat.find hex' + 1), ?_⟩
    rw [hfirst (Nat.find hex') _ hmin hget hid (Nat.find hex' + 1), if_pos (Nat.lt_succ_self _)]
  · intro hall fuel
    rw [getRandomEnemy, if_neg hnot]
    apply getRandomEnemyLoop_outOfFuel
    intro j _
    rw [List.getElem?_eq_getElem (hrange _)]
    exact congrArg some (hall _ (List.getElem_mem _))

theorem getRandomEnemy_returns_iff_witness :
    2 ≤ ["a", "a"].length ∧ (∀ k : Nat, (fun _ : Nat => 0) k < ["a", "a"].length) ∧
    (∀ fuel, getRandomEnemy "a" ["a", "a"] (fun _ => 0) fuel 0 = Outcome.outOfFuel) :=
  ⟨by decide, fun _ => Nat.zero_lt_succ 1,
    (getRandomEnemy_returns_iff "a" ["a", "a"] (fun _ => 0) 0 (by decide)
      (fun _ => Nat.zero_lt_succ 1)).2.2 (by simp)⟩

/-! ## Facts about the frames -/

theorem HasPrefix_append (t rest : String) : HasPrefix (t ++ rest) t = true := by
  have hlen : t.length ≤ (t ++ rest).length := by
    rw [String.length_append]
    exact Nat.le_add_right _ _
  have htake : (t ++ rest).data.take t.length = t.data := by
    rw [String.data_append]
    exact List.take_left' rfl
  unfold HasPrefix
  rw [decide_eq_true hlen, decide_eq_true htake]
  rfl

theorem HasPrefix_iff (s pre : String) : HasPrefix s pre = true ↔ pre.data <+: s.data := by
  rw [List.prefix_iff_eq_take]
  constructor
  · intro h
    simp only [HasPrefix, Bool.and_eq_true, decide_eq_true_eq] at h
    exact h.2.symm
  · intro h
    simp only [HasPrefix, Bool.and_eq_true, decide_eq_true_eq, String.length]
    refine ⟨?_, h.symm⟩
    have hlen := congrArg List.length h
    rw [List.length_take] at hlen
    omega

theorem Sprintf_msgTemplate_eq (t : String) :
    Sprintf msgTemplate [t] =
      some (t ++ ",4.23124,3.1415,8.5828348,270.42198842,184.24928148") := rfl

theorem listenPlayerMessages_accepted (playerID : String) (accepted : List String)
    (later : List ReadEvent) (received : Int)
    (haccepted : ∀ x, x ∈ accepted → HasPrefix x playerID = true) :
    listenPlayerMessages playerID (accepted.map ReadEvent.message ++ later) received =
      listenPlayerMessages playerID later ((fun v => AddInt64 v 1)^[accepted.length] received) := by
  induction accepted generalizing received with
  | nil => rfl
  | cons x xs ih =>
    have hx : HasPrefix x playerID = true := haccepted x (List.mem_cons_self x xs)
    have hxs : ∀ y, y ∈ xs → HasPrefix y playerID = true :=
      fun y hy => haccepted y (List.mem_cons_of_mem x hy)
    simp only [List.map_cons, List.cons_append, listenPlayerMessages, hx, Bool.true_eq_false,
      if_false, List.length_cons, Function.iterate_succ_apply]
    exact ih (AddInt64 received 1) hxs

/-- C9: for every target `t` that `getRandomEnemy` hands to the sender at a
tick, also one containing `%` or `,`, the text frame that `sendPlayerMessages`
composes from `msgTemplate` and writes is `t` followed by the five fixed
fields: a successful write appends that frame to the connection and counts it,
a failed write ends the task without a frame; the frame has `t` as a prefix,
and the receiver owned by `t` accepts it (it counts the message and goes on
reading). -/
theorem sendPlayerMessages_frame (playerID : String) (ids : List String)
    (draws : Nat → Nat) (fuel : Nat) (s : SenderState) (t : String) (drawn : Nat)
    (hret : getRandomEnemy playerID ids draws fuel s.drawn = Outcome.returned (t, drawn)) :
    Sprintf msgTemplate [t] =
      some (t ++ ",4.23124,3.1415,8.5828348,270.42198842,184.24928148") ∧
    (∀ rest : List SelectEvent,
      sendLoop playerID ids draws fuel (SelectEvent.tick true :: rest) s =
        sendLoop playerID ids draws fuel rest
          { s with
            drawn := drawn
            sentMessages := AddInt64 s.sentMessages 1
            conn :=
              { s.conn with
                written := s.conn.written ++
                  [Frame.text
                    (t ++ ",4.23124,3.1415,8.5828348,270.42198842,184.24928148")] } }) ∧
    (∀ rest : List SelectEvent,
      sendLoop playerID ids draws fuel (SelectEvent.tick false :: rest) s =
        (TaskStatus.exited, { s with drawn := drawn })) ∧
    sendPlayerMessages playerID ids draws fuel [SelectEvent.tick true, SelectEvent.quit] true s =
      (TaskStatus.exited,
        { s with
          drawn := drawn
          sentMessages := AddInt64 s.sentMessages 1
          conn :=
            { written := s.conn.written ++
                [Frame.text (t ++ ",4.23124,3.1415,8.5828348,270.42198842,184.24928148"),
                  Frame.close]
              closed := true } }) ∧
    HasPrefix (t ++ ",4.23124,3.1415,8.5828348,270.42198842,184.24928148") t = true ∧
    ∀ (later : List ReadEvent) (received : Int),
      listenPlayerMessages t
        (ReadEvent.message (t ++ ",4.23124,3.1415,8.5828348,270.42198842,184.24928148")
          :: later) received =
        listenPlayerMessages t later (AddInt64 received 1) := by
  have hret' : getRandomEnemy playerID ids draws fuel { s with wg := s.wg + 1 }.drawn =
      Outcome.returned (t, drawn) := hret
  refine ⟨Sprintf_msgTemplate_eq t, ?_, ?_, ?_, HasPrefix_append t _, ?_⟩
  · intro rest
    simp only [sendLoop, hret, Sprintf_msgTemplate_eq, if_true]
  · intro rest
    simp only [sendLoop, hret, Sprintf_msgTemplate_eq, Bool.false_eq_true, if_false]
  · simp only [sendPlayerMessages, sendLoop, hret', Sprintf_msgTemplate_eq, if_true,
      sendTeardown, Bool.true_eq_false, if_false, List.append_assoc, List.singleton_append,
      add_sub_cancel_right]
  · intro later received
    simp [listenPlayerMessages, HasPrefix_append]

theorem sendPlayerMessages_frame_witness :
    getRandomEnemy "a" ["a", "b%s,c"] (fun _ => 1) 1 0 = Outcome.returned ("b%s,c", 1) ∧
    sendPlayerMessages "a" ["a", "b%s,c"] (fun _ => 1) 1
        [SelectEvent.tick true, SelectEvent.quit] true ⟨0, 0, 0, ⟨[], false⟩⟩ =
      (TaskStatus.exited,
        ⟨0, 1, 1,
          ⟨[Frame.text "b%s,c,4.23124,3.1415,8.5828348,270.42198842,184.24928148",
            Frame.close], true⟩⟩) :=
  ⟨by decide,
    (sendPlayerMessages_frame "a" ["a", "b%s,c"] (fun _ => 1) 1 ⟨0, 0, 0, ⟨[], false⟩⟩
      "b%s,c" 1 (by decide)).2.2.2.1.trans (by decide)⟩

/-- C5, as the claim states it, fails: the receiver of player `a` counts a
message whose leading field is `ab` and goes on reading. -/
theorem listenPlayerMessages_counts_longer_field :
    leadingField "ab,4.23124,3.1415,8.5828348,270.42198842,184.24928148" ≠ "a" ∧
    listenPlayerMessages "a"
      [ReadEvent.message "ab,4.23124,3.1415,8.5828348,270.42198842,184.24928148"] 0 =
      (TaskStatus.blocked, 1) := by
  decide

/-- C5, amended: the check is a string prefix check.  After any messages that
start with `playerID`, each of which increments `receivedMessages`, a message
that does not start with `playerID` ends `listenPlayerMessages` without an
increment; every message whose leading field equals `playerID` starts with
`playerID`. -/
theorem listenPlayerMessages_prefix_check (playerID : String) (accepted : List String)
    (m : String) (later : List ReadEvent) (received : Int)
    (haccepted : ∀ x, x ∈ accepted → HasPrefix x playerID = true)
    (hforeign : HasPrefix m playerID = false) :
    listenPlayerMessages playerID
        (accepted.map ReadEvent.message ++ ReadEvent.message m :: later) received =
      (TaskStatus.exited, (fun v => AddInt64 v 1)^[accepted.length] received) ∧
    ∀ x, leadingField x = playerID → HasPrefix x playerID = true := by
  constructor
  · rw [listenPlayerMessages_accepted playerID accepted _ received haccepted]
    simp [listenPlayerMessages, hforeign]
  · intro x hx
    rw [HasPrefix_iff, ← hx]
    exact List.takeWhile_prefix _

theorem listenPlayerMessages_prefix_check_witness :
    (∀ x, x ∈ ["a,1", "a,2"] → HasPrefix x "a" = true) ∧ HasPrefix "b,3" "a" = false ∧
    listenPlayerMessages "a"
        (["a,1", "a,2"].map ReadEvent.message ++ ReadEvent.message "b,3" ::
          [ReadEvent.message "a,4"]) 0 =
      (TaskStatus.exited, 2) :=
  ⟨by decide, by decide,
    (listenPlayerMessages_prefix_check "a" ["a,1", "a,2"] "b,3" [ReadEvent.message "a,4"] 0
      (by decide) (by decide)).1⟩

/-! ## Facts about `sendPlayerMessages` -/

theorem Sprintf_msgTemplate_empty :
    Sprintf msgTemplate [""] =
      some ",4.23124,3.1415,8.5828348,270.42198842,184.24928148" := rfl

theorem sendLoop_wg_closed (playerID : String) (ids : List String) (draws : Nat → Nat)
    (fuel : Nat) (events : List SelectEvent) (s : SenderState) :
    (sendLoop playerID ids draws fuel events s).2.wg = s.wg ∧
    (sendLoop playerID ids draws fuel events s).2.conn.closed = s.conn.closed := by
  induction events generalizing s with
  | nil => simp [sendLoop]
  | cons e rest ih =>
    cases e with
    | quit => simp [sendLoop]
    | tick writeOk =>
      simp only [sendLoop]
      split
      · simp
      · simp
      · split
        · simp
        · split
          · rw [(ih _).1, (ih _).2]
            simp
          · simp

/-- When `sendPlayerMessages` returns, the counter of `wg` is back at its
value before the call and the connection is closed if the close frame was
written; if writing the close frame failed, the counter stays one higher and
`c.Close()` was not called. -/
theorem sendPlayerMessages_exit_barrier (playerID : String) (ids : List String)
    (draws : Nat → Nat) (fuel : Nat) (events : List SelectEvent) (closeWriteOk : Bool)
    (s : SenderState)
    (hexit : (sendPlayerMessages playerID ids draws fuel events closeWriteOk s).1 =
      TaskStatus.exited) :
    (sendPlayerMessages playerID ids draws fuel events closeWriteOk s).2.wg =
      (if closeWriteOk = true then s.wg else s.wg + 1) ∧
    (sendPlayerMessages playerID ids draws fuel events closeWriteOk s).2.conn.closed =
      (closeWriteOk || s.conn.closed) := by
  have hinv := sendLoop_wg_closed playerID ids draws fuel events { s with wg := s.wg + 1 }
  unfold sendPlayerMessages at hexit ⊢
  generalize sendLoop playerID ids draws fuel events { s with wg := s.wg + 1 } = r at hinv hexit ⊢
  obtain ⟨status, s'⟩ := r
  cases status <;> cases closeWriteOk <;> simp_all [sendTeardown]

/-- C4, evaluated where it fails: the task exits (on cancellation, and after a
failed message write) and writing the close frame returns an error; the
deferred function returns early, so the counter of `wg` stays at 1 instead of
going back to 0 and the connection is not closed. -/
theorem sendPlayerMessages_close_error_skips_done :
    sendPlayerMessages "a" ["a", "b"] (fun _ => 1) 1 [SelectEvent.quit] false
        ⟨0, 0, 0, ⟨[], false⟩⟩ =
      (TaskStatus.exited, ⟨1, 0, 0, ⟨[], false⟩⟩) ∧
    sendPlayerMessages "a" ["a", "b"] (fun _ => 1) 1 [SelectEvent.tick false] false
        ⟨0, 0, 0, ⟨[], false⟩⟩ =
      (TaskStatus.exited, ⟨1, 0, 1, ⟨[], false⟩⟩) := by
  decide

/-- C6, as the claim states it, fails: with the identity list `["a"]` a tick
whose write succeeds sends the frame with an empty target and increments
`sentMessages` to 1. -/
theorem sendPlayerMessages_single_identity_sends :
    sendPlayerMessages "a" ["a"] (fun _ => 0) 0 [SelectEvent.tick true, SelectEvent.quit] true
        ⟨0, 0, 0, ⟨[], false⟩⟩ =
      (TaskStatus.exited,
        ⟨0, 1, 0,
          ⟨[Frame.text ",4.23124,3.1415,8.5828348,270.42198842,184.24928148", Frame.close],
            true⟩⟩) := by
  decide

/-- C6, amended: when the identity list has length 1, `getRandomEnemy` gives
the empty string without a draw and the sender still writes a frame, with an
empty target, at every tick: over ticks with the write results `outcomes`,
`sentMessages` is incremented once for every write that succeeds before the
first failed write, and the task ends at the first failed write. -/
theorem sendLoop_single_identity (playerID : String) (ids : List String)
    (draws : Nat → Nat) (fuel : Nat) (outcomes : List Bool) (s : SenderState)
    (hone : ids.length = 1) :
    sendLoop playerID ids draws fuel (outcomes.map SelectEvent.tick) s =
      (if outcomes.all (fun ok => ok) = true then TaskStatus.blocked else TaskStatus.exited,
        { s with
          sentMessages :=
            (fun v => AddInt64 v 1)^[(outcomes.takeWhile (fun ok => ok)).length] s.sentMessages
          conn :=
            { s.conn with
              written := s.conn.written ++
                List.replicate (outcomes.takeWhile (fun ok => ok)).length
                  (Frame.text ",4.23124,3.1415,8.5828348,270.42198842,184.24928148") } }) := by
  have hshort : ids.length < 2 := by omega
  induction outcomes generalizing s with
  | nil => simp [sendLoop]
  | cons ok rest ih =>
    simp only [List.map_cons, sendLoop,
      getRandomEnemy_of_length_lt_two playerID ids draws fuel s.drawn hshort,
      Sprintf_msgTemplate_empty]
    cases ok with
    | false => simp
    | true =>
      simp only [if_true, ih, List.all_cons, Bool.true_and, List.takeWhile_cons_of_pos,
        List.length_cons, Function.iterate_succ_apply, List.replicate_succ, List.append_assoc,
        List.singleton_append]

theorem sendLoop_single_identity_witness :
    ["a"].length = 1 ∧
    sendLoop "a" ["a"] (fun _ => 0) 0 ([true, true, false, true].map SelectEvent.tick)
        ⟨1, 0, 0, ⟨[], false⟩⟩ =
      (TaskStatus.exited,
        ⟨1, 2, 0,
          ⟨[Frame.text ",4.23124,3.1415,8.5828348,270.42198842,184.24928148",
            Frame.text ",4.23124,3.1415,8.5828348,270.42198842,184.24928148"], false⟩⟩) :=
  ⟨rfl, (sendLoop_single_identity "a" ["a"] (fun _ => 0) 0 [true, true, false, true]
    ⟨1, 0, 0, ⟨[], false⟩⟩ rfl).trans (by decide)⟩

/-! ## Facts about the start-up of `main` -/

theorem senders_append (xs ys : List Task) : senders (xs ++ ys) = senders xs ++ senders ys := by
  simp [senders, List.filterMap_append]

theorem startLoop_first_failing_dial (ids : List String) (dial : Nat → Bool) (k : Nat)
    (remaining i : Nat) (spawned : List Task)
    (hrem : k < remaining) (hids : i + k < ids.length)
    (hok : ∀ j, j < k → dial (i + j) = true) (hfail : dial (i + k) = false) :
    (startLoop ids dial remaining i spawned).1 = StartStatus.fatal ∧
    senders (startLoop ids dial remaining i spawned).2 =
      senders spawned ++ (ids.drop i).take k := by
  induction k generalizing remaining i spawned with
  | zero =>
    obtain ⟨r, rfl⟩ : ∃ r, remaining = r + 1 := ⟨remaining - 1, by omega⟩
    have hi : i < ids.length := by omega
    have hfail0 : dial i = false := by simpa using hfail
    simp [startLoop, List.getElem?_eq_getElem hi, connectPlayer, hfail0]
  | succ n ih =>
    obtain ⟨r, rfl⟩ : ∃ r, remaining = r + 1 := ⟨remaining - 1, by omega⟩
    have hi : i < ids.length := by omega
    have hok0 : dial i = true := by simpa using hok 0 (Nat.succ_pos n)
    have hnext := ih r (i + 1) (spawned ++ [Task.listener ids[i]] ++ [Task.sender ids[i]])
      (by omega) (by omega)
      (fun j hj => by
        have := hok (j + 1) (Nat.succ_lt_succ hj)
        rwa [show i + (j + 1) = i + 1 + j by omega] at this)
      (by rwa [show i + (n + 1) = i + 1 + n by omega] at hfail)
    simp only [startLoop, List.getElem?_eq_getElem hi, connectPlayer, hok0, Bool.true_eq_false,
      if_false]
    refine ⟨hnext.1, ?_⟩
    rw [hnext.2, senders_append, senders_append, List.drop_eq_getElem_cons hi,
      List.take_succ_cons]
    simp only [senders, List.filterMap_cons, List.filterMap_nil, List.append_nil,
      List.append_assoc, List.singleton_append]

/-- C7, as the claim states it, fails: with two bots and the dial of the second
one failing, the run aborts after the sender task of the first bot has been
started. -/
theorem startFleet_sender_before_failing_dial :
    startFleet ["a", "b"] (fun i => decide (i ≠ 1)) 2 =
      (StartStatus.fatal, [Task.listener "a", Task.sender "a"]) ∧
    senders (startFleet ["a", "b"] (fun i => decide (i ≠ 1)) 2).2 ≠ [] := by
  decide

/-- C7, amended: when the first failing dial is the one of iteration `i` of
the start-up loop, the run aborts there and the sender tasks started before
are those of the first `i` identities, one for each iteration before `i`:
none only when `i = 0`. -/
theorem startFleet_first_failing_dial (ids : List String) (dial : Nat → Bool)
    (numBots : Int) (i : Nat)
    (hi : (i : Int) < numBots) (hids : i < ids.length)
    (hok : ∀ j, j < i → dial j = true) (hfail : dial i = false) :
    (startFleet ids dial numBots).1 = StartStatus.fatal ∧
    senders (startFleet ids dial numBots).2 = ids.take i ∧
    (senders (startFleet ids dial numBots).2).length = i := by
  have hrem : i < numBots.toNat := by omega
  have h := startLoop_first_failing_dial ids dial i numBots.toNat 0 [] hrem (by omega)
    (fun j hj => by simpa using hok j hj) (by simpa using hfail)
  have hs : senders (startFleet ids dial numBots).2 = ids.take i := by
    simpa [startFleet, senders] using h.2
  refine ⟨h.1, hs, ?_⟩
  rw [hs, List.length_take]
  omega

theorem startFleet_first_failing_dial_witness :
    ((2 : Nat) : Int) < 3 ∧ 2 < ["a", "b", "c"].length ∧
    (startFleet ["a", "b", "c"] (fun i => decide (i ≠ 2)) 3).1 = StartStatus.fatal ∧
    senders (startFleet ["a", "b", "c"] (fun i => decide (i ≠ 2)) 3).2 = ["a", "b"] :=
  have h := startFleet_first_failing_dial ["a", "b", "c"] (fun i => decide (i ≠ 2)) 3 2
    (by decide) (by decide) (fun j hj => by simp; omega) (by simp)
  ⟨by decide, by decide, h.1, h.2.1⟩

/-! ## Facts about the shutdown of `main` -/

/-- C8, as the claim states it, fails: with one sender in flight (the counter
of `wg` is 1) and `quitChan` open, the handler runs `printDetails` first, with
`quitChan` still open and the counter at 1, then closes `quitChan`, then
exits. -/
theorem interruptHandler_reports_before_cancel :
    (interruptHandler ⟨1, false, none, []⟩).steps =
      [ShutdownStep.logQuit, ShutdownStep.printDetails false 1, ShutdownStep.closeQuitChan,
        ShutdownStep.exit 0] ∧
    reportsAfterDrain (interruptHandler ⟨1, false, none, []⟩).steps = false := by
  decide

/-- C8, amended: the steps of the interrupt handler occur in the order:
report the metrics (`printDetails`), broadcast the cancellation (close
`quitChan`), terminate (`os.Exit(0)`); the handler does not wait for the drain
barrier: `printDetails` runs with `quitChan` and the counter of `wg` as they
were when the interrupt arrived. -/
theorem interruptHandler_order (s : ShutdownState) :
    (interruptHandler s).steps =
      s.steps ++ [ShutdownStep.logQuit, ShutdownStep.printDetails s.quitClosed s.wg,
        ShutdownStep.closeQuitChan, ShutdownStep.exit 0] ∧
    (interruptHandler s).quitClosed = true ∧
    (interruptHandler s).exited = some 0 ∧
    (interruptHandler s).wg = s.wg := by
  simp [interruptHandler, stepExit, stepCloseQuitChan, stepPrintDetails, stepLogQuit]

/-! ## Facts about `printDetails` -/

theorem roundHalfEven_ge (x : ℚ) : ⌊x⌋ ≤ roundHalfEven x := by
  unfold roundHalfEven
  split_ifs <;> omega

theorem roundHalfEven_le (x : ℚ) : roundHalfEven x ≤ ⌊x⌋ + 1 := by
  unfold roundHalfEven
  split_ifs <;> omega

theorem abs_eq_natAbs_div_den (q : ℚ) : |q| = (q.num.natAbs : ℚ) / (q.den : ℚ) := by
  have h : |q| = |(q.num : ℚ)| / |(q.den : ℚ)| := by
    rw [← abs_div, Rat.num_div_den]
  rw [h, abs_of_nonneg (Nat.cast_nonneg q.den (α := ℚ)), Nat.cast_natAbs, Int.cast_abs]

theorem two_zpow_binaryExponent_le (q : ℚ) (hq : q ≠ 0) : (2 : ℚ) ^ binaryExponent q ≤ |q| := by
  unfold binaryExponent
  split_ifs with h
  · exact h
  · have hn : q.num.natAbs ≠ 0 := by
      simpa [Int.natAbs_eq_zero] using hq
    have h1 : ((2 : ℚ) ^ (Nat.log2 q.num.natAbs)) ≤ (q.num.natAbs : ℚ) := by
      exact_mod_cast Nat.log2_self_le hn
    have h2 : (q.den : ℚ) ≤ (2 : ℚ) ^ (Nat.log2 q.den + 1) := by
      exact_mod_cast (Nat.lt_log2_self (n := q.den)).le
    have hden : (0 : ℚ) < q.den := by exact_mod_cast q.den_pos
    rw [abs_eq_natAbs_div_den, le_div_iff₀ hden]
    have he : (2 : ℚ) ^ ((Nat.log2 q.num.natAbs : Int) - (Nat.log2 q.den : Int) - 1)
        = (2 : ℚ) ^ (Nat.log2 q.num.natAbs) / (2 : ℚ) ^ (Nat.log2 q.den + 1) := by
      rw [show ((Nat.log2 q.num.natAbs : Int) - (Nat.log2 q.den : Int) - 1)
        = (Nat.log2 q.num.natAbs : Int) - ((Nat.log2 q.den + 1 : Nat) : Int) by push_cast; ring]
      rw [zpow_sub₀ (by norm_num : (2 : ℚ) ≠ 0), zpow_natCast, zpow_natCast]
    rw [he, div_mul_eq_mul_div, div_le_iff₀ (by positivity)]
    exact mul_le_mul h1 h2 hden.le (by positivity)

theorem ulp_le (q : ℚ) (hq : q ≠ 0) : (2 : ℚ) ^ (binaryExponent q - 52) * 2 ≤ |q| := by
  have h := two_zpow_binaryExponent_le q hq
  have h2 : (2 : ℚ) ^ (binaryExponent q - 52) * 2 ≤ (2 : ℚ) ^ binaryExponent q := by
    rw [zpow_sub₀ (by norm_num : (2 : ℚ) ≠ 0)]
    have hp : (0 : ℚ) < (2 : ℚ) ^ binaryExponent q := by positivity
    rw [div_mul_eq_mul_div, div_le_iff₀ (by positivity)]
    have : (2 : ℚ) ≤ 2 ^ (52 : ℤ) := by norm_num
    nlinarith
  exact le_trans h2 h

theorem roundFloat64_pos (q : ℚ) (hq : 0 < q) : 0 < roundFloat64 q := by
  have hne : q ≠ 0 := ne_of_gt hq
  have hu : (0 : ℚ) < (2 : ℚ) ^ (binaryExponent q - 52) := by positivity
  have hle := ulp_le q hne
  rw [abs_of_pos hq] at hle
  have hx : (2 : ℚ) ≤ q / (2 : ℚ) ^ (binaryExponent q - 52) := by
    rw [le_div_iff₀ hu]; linarith
  have hfl : (2 : ℤ) ≤ ⌊q / (2 : ℚ) ^ (binaryExponent q - 52)⌋ := Int.le_floor.mpr (by exact_mod_cast hx)
  have hr := roundHalfEven_ge (q / (2 : ℚ) ^ (binaryExponent q - 52))
  rw [roundFloat64, if_neg hne]
  apply mul_pos _ hu
  exact_mod_cast (by omega : (0 : ℤ) < roundHalfEven (q / (2 : ℚ) ^ (binaryExponent q - 52)))

theorem roundFloat64_neg (q : ℚ) (hq : q < 0) : roundFloat64 q < 0 := by
  have hne : q ≠ 0 := ne_of_lt hq
  have hu : (0 : ℚ) < (2 : ℚ) ^ (binaryExponent q - 52) := by positivity
  have hle := ulp_le q hne
  rw [abs_of_neg hq] at hle
  have hx : q / (2 : ℚ) ^ (binaryExponent q - 52) ≤ ((-2 : ℤ) : ℚ) := by
    rw [div_le_iff₀ hu]; push_cast; linarith
  have hfl : ⌊q / (2 : ℚ) ^ (binaryExponent q - 52)⌋ ≤ (-2 : ℤ) := by
    have := Int.floor_le (q / (2 : ℚ) ^ (binaryExponent q - 52))
    exact_mod_cast le_trans this hx
  have hr := roundHalfEven_le (q / (2 : ℚ) ^ (binaryExponent q - 52))
  rw [roundFloat64, if_neg hne]
  apply mul_neg_of_neg_of_pos _ hu
  exact_mod_cast (by omega : roundHalfEven (q / (2 : ℚ) ^ (binaryExponent q - 52)) < (0 : ℤ))

theorem roundFloat64_intCast_eq_zero (n : Int) : roundFloat64 (n : ℚ) = 0 ↔ n = 0 := by
  constructor
  · intro h
    rcases lt_trichotomy n 0 with hn | hn | hn
    · have := roundFloat64_neg (n : ℚ) (by exact_mod_cast hn)
      linarith
    · exact hn
    · have := roundFloat64_pos (n : ℚ) (by exact_mod_cast hn)
      linarith
  · rintro rfl
    simp [roundFloat64]

theorem roundFloat64_intCast_neg (n : Int) : roundFloat64 (n : ℚ) < 0 ↔ n < 0 := by
  constructor
  · intro h
    by_contra hn
    rcases eq_or_lt_of_le (not_lt.mp hn) with h0 | hpos
    · rw [← h0] at h
      simp [roundFloat64] at h
    · have := roundFloat64_pos (n : ℚ) (by exact_mod_cast hpos)
      linarith
  · intro hn
    exact roundFloat64_neg (n : ℚ) (by exact_mod_cast hn)

theorem percentage_cases (receivedMessages sentMessages : Int) :
    percentage receivedMessages sentMessages =
      if sentMessages = 0 then
        (if receivedMessages = 0 then Float64.nan
          else Float64.inf (decide (receivedMessages < 0)))
      else
        Float64.finite (roundFloat64 (roundFloat64
          (roundFloat64 receivedMessages / roundFloat64 sentMessages) * 100)) := by
  have hz : roundFloat64 0 = 0 := if_pos rfl
  have h100 : ¬ ((100 : ℚ) < 0) := by norm_num
  by_cases hs : sentMessages = 0
  · subst hs
    by_cases hr : receivedMessages = 0
    · subst hr
      simp [percentage, Float64.ofInt64, Float64.div, Float64.mul, hz]
    · have hr0 : roundFloat64 ((receivedMessages : Int) : ℚ) ≠ 0 :=
        fun h => hr ((roundFloat64_intCast_eq_zero receivedMessages).mp h)
      simp [percentage, Float64.ofInt64, Float64.div, Float64.mul, hz, hr0, hr, h100,
        roundFloat64_intCast_neg]
  · have hs0 : roundFloat64 ((sentMessages : Int) : ℚ) ≠ 0 :=
      fun h => hs ((roundFloat64_intCast_eq_zero sentMessages).mp h)
    simp [percentage, Float64.ofInt64, Float64.div, Float64.mul, hs0, hs]

/-- C3, as the claim states it, fails: with `sentMessages == 0` the division is
not guarded and the percentage is not 0: it is NaN when `receivedMessages` is
0 as well, and positive infinity when `receivedMessages` is 1. -/
theorem percentage_zero_sent_not_zero :
    percentage 0 0 = Float64.nan ∧ percentage 0 0 ≠ Float64.finite 0 ∧
    percentage 1 0 = Float64.inf false ∧ percentage 1 0 ≠ Float64.finite 0 := by
  have h0 : percentage 0 0 = Float64.nan := by
    rw [percentage_cases]
    rfl
  have h1 : percentage 1 0 = Float64.inf false := by
    rw [percentage_cases]
    rfl
  refine ⟨h0, ?_, h1, ?_⟩
  · rw [h0]
    exact fun h => Float64.noConfusion h
  · rw [h1]
    exact fun h => Float64.noConfusion h

/-- C3, amended: the division of `printDetails` is a `float64` division without
a guard.  It never fails; when `sentMessages == 0` the percentage is NaN for
`receivedMessages == 0` and otherwise the infinity with the sign of
`receivedMessages`; when `sentMessages != 0` it is the rounded
`float64(receivedMessages) / float64(sentMessages) * 100`. -/
theorem percentage_unguarded (receivedMessages sentMessages : Int) :
    percentage receivedMessages sentMessages =
      if sentMessages = 0 then
        (if receivedMessages = 0 then Float64.nan
          else Float64.inf (decide (receivedMessages < 0)))
      else
        Float64.finite (roundFloat64 (roundFloat64
          (roundFloat64 receivedMessages / roundFloat64 sentMessages) * 100)) :=
  percentage_cases receivedMessages sentMessages

end Bot
